import Mathlib

/-!
Shallow embedding of the signal-analysis core of `voice-transcriber-svm`
(files `src/utils/svm.js`, `src/utils/audio.js`, `src/utils/attention.js`),
together with theorems checking the natural-language specification against it.

Conventions of the embedding:
* JavaScript numbers are modelled by `ℚ` wherever the source only uses
  rational arithmetic; `ℝ` is used where the source applies `Math.exp` or
  `Math.sqrt`.
* A JavaScript division whose denominator may be zero (producing `NaN` or
  `±Infinity`) is modelled through `Option ℚ`: `none` stands for a
  non-finite value, and arithmetic on `Option ℚ` propagates `none` the way
  JavaScript arithmetic propagates non-finite values.
* `text.split(' ')` in JavaScript is `jsSplitOnSpace` below (both return
  one empty token for the empty string, and keep empty tokens between
  consecutive separators).
-/

/-! ## String primitives

Lean's own `String.splitOn` and `String.toLower` are opaque to the kernel,
so the embedding realizes JavaScript's `split(' ')` and `toLowerCase()` by
structural recursion over the underlying character list.  `splitChar` keeps
empty fields exactly like JavaScript `split`: the empty string yields one
empty token, consecutive separators yield empty tokens between them. -/

/-- Split a character list at every occurrence of `sep`, keeping empty
fields (JavaScript `String.prototype.split` with a one-character
separator). -/
def splitChar (sep : Char) : List Char → List (List Char)
  | [] => [[]]
  | c :: cs =>
    match splitChar sep cs with
    | [] => [[]]
    | t :: ts => if c = sep then [] :: t :: ts else (c :: t) :: ts

/-- JavaScript `text.split(' ')`. -/
def jsSplitOnSpace (text : String) : List String :=
  (splitChar ' ' text.data).map String.mk

/-- JavaScript `text.toLowerCase()` (ASCII case folding, which is all the
source's word lists need). -/
def jsToLower (text : String) : String :=
  ⟨text.data.map Char.toLower⟩

/-! ## Text features and classifier (`src/utils/svm.js`) -/

/-- The feature record built by `speechFeatures.extractFeatures`. -/
structure TextFeatures where
  wordCount : ℕ
  avgWordLength : ℚ
  hasQuestionMarks : ℕ
  hasExclamations : ℕ
  speechRate : ℕ
  sentiment : ℤ
  complexity : ℚ
  deriving DecidableEq

/-- `positiveWords` from `calculateSentiment` in `svm.js`. -/
def positiveWords : List String :=
  ["good", "great", "awesome", "excellent", "wonderful", "amazing", "fantastic"]

/-- `negativeWords` from `calculateSentiment` in `svm.js`. -/
def negativeWords : List String :=
  ["bad", "terrible", "awful", "horrible", "disgusting", "hate", "angry"]

/-- `calculateSentiment(words)`: +1 per positive word, -1 per negative word. -/
def calculateSentiment (words : List String) : ℤ :=
  words.foldl
    (fun score word =>
      (if positiveWords.contains word then score + 1 else score) +
      (if negativeWords.contains word then -1 else 0))
    0

/-- `calculateComplexity(words)`: fraction of words longer than 6 characters.
The source guards the division with `|| 0`; in `ℚ` the division by a zero
length already yields `0`. -/
def calculateComplexity (words : List String) : ℚ :=
  ((words.filter (fun word => 6 < word.length)).length : ℚ) / words.length

namespace speechFeatures

/-- `speechFeatures.extractFeatures(text)` from `svm.js`.
`text.toLowerCase().split(' ')` is `(text.toLower).splitOn " "`; the
`|| 0` guard on `avgWordLength` is the `ℚ` division-by-zero convention. -/
def extractFeatures (text : String) : TextFeatures :=
  let words := jsSplitOnSpace (jsToLower text)
  { wordCount := words.length
    avgWordLength := ((words.map String.length).sum : ℚ) / words.length
    hasQuestionMarks := (text.toList.filter (· = '?')).length
    hasExclamations := (text.toList.filter (· = '!')).length
    speechRate := words.length
    sentiment := calculateSentiment words
    complexity := calculateComplexity words }

end speechFeatures

/-- A classification result `{ type, confidence }` as returned by
`svmClassifier.classify`. -/
structure Classification where
  type : String
  confidence : ℚ
  deriving DecidableEq

namespace svmClassifier

/-- `svmClassifier.classify(features)` from `svm.js`: the ordered decision
list of six rules, first match wins. -/
def classify (features : TextFeatures) : Classification :=
  if 0.3 < features.complexity ∧ 5 < features.avgWordLength then
    ⟨"Formal Speech", 0.85⟩
  else if 10 < features.speechRate ∧ 0 < features.sentiment then
    ⟨"Excited Speech", 0.78⟩
  else if features.avgWordLength < 4 ∧ features.wordCount < 5 then
    ⟨"Casual Speech", 0.82⟩
  else if features.sentiment < 0 then
    ⟨"Emotional Speech", 0.76⟩
  else if features.speechRate < 3 then
    ⟨"Slow Speech", 0.80⟩
  else
    ⟨"Normal Speech", 0.75⟩

end svmClassifier

/-- Spec-side model: a first-match-wins evaluator over an ordered list of
(condition, result) rules with a fallback.  Used to state that `classify`
is an ordered decision list. -/
def firstMatch (rules : List (Bool × Classification)) (fallback : Classification) :
    Classification :=
  match rules with
  | [] => fallback
  | (c, r) :: rest => if c then r else firstMatch rest fallback

/-- Spec-side model: the six rules of §4.3 in the spec's order, with the
fixed per-rule confidences. -/
def decisionRules (f : TextFeatures) : List (Bool × Classification) :=
  [ (decide (0.3 < f.complexity ∧ 5 < f.avgWordLength), ⟨"Formal Speech", 0.85⟩),
    (decide (10 < f.speechRate ∧ 0 < f.sentiment), ⟨"Excited Speech", 0.78⟩),
    (decide (f.avgWordLength < 4 ∧ f.wordCount < 5), ⟨"Casual Speech", 0.82⟩),
    (decide (f.sentiment < 0), ⟨"Emotional Speech", 0.76⟩),
    (decide (f.speechRate < 3), ⟨"Slow Speech", 0.80⟩) ]

/-- The example feature vector of the spec's §8:
`{complexity: 0.4, avgWordLength: 4.4, speechRate: 5, wordCount: 5, sentiment: 0}`. -/
def exampleFeatures : TextFeatures :=
  { wordCount := 5
    avgWordLength := 4.4
    hasQuestionMarks := 0
    hasExclamations := 0
    speechRate := 5
    sentiment := 0
    complexity := 0.4 }

/-! ## Audio frame analysis (`src/utils/audio.js`) -/

/-- The `frequencyDistribution` object of an analyzed frame. -/
structure FrequencyDistribution where
  low : ℚ
  mid : ℚ
  high : ℚ
  deriving DecidableEq

/-- **AudioFrameMetrics**: the object returned per analyzed frame
(`analyzeFrequencyData`) and consumed by `calculateSpeechCharacteristics`
and `speechQuality.assessQuality`.  `rms` is `ℚ` here because the
downstream consumers only compare it; the analyzer's own (irrational) rms
value is modelled separately as `audioProcessor.rms`. -/
structure AudioFrameMetrics where
  average : ℚ
  peak : ℚ
  rms : ℚ
  isSpeaking : Bool
  frequencyDistribution : FrequencyDistribution
  timestamp : ℕ
  deriving DecidableEq

namespace audioProcessor

/-- The raw `average` computed in `analyzeFrequencyData` (0–255 scale):
`dataArray.reduce((sum, value) => sum + value, 0) / bufferLength`. -/
def average (dataArray : List ℕ) : ℚ :=
  (dataArray.sum : ℚ) / dataArray.length

/-- The raw `peak` of `analyzeFrequencyData`: `Math.max(...dataArray)`
(the guard `dataArray ≠ []` keeps this meaningful; `Math.max()` of an
empty spread is `-Infinity`). -/
def peak (dataArray : List ℕ) : ℕ :=
  dataArray.foldr max 0

/-- The raw `rms` of `analyzeFrequencyData`:
`Math.sqrt(dataArray.reduce((sum, value) => sum + value * value, 0) / bufferLength)`. -/
noncomputable def rms (dataArray : List ℕ) : ℝ :=
  Real.sqrt ((((dataArray.map fun value => value * value).sum : ℕ) : ℚ) / dataArray.length)

/-- `lowFreq = dataArray.slice(0, bufferLength / 4)` — JavaScript `slice`
truncates the fractional bound, which for non-negative `N` is `⌊N/4⌋`,
i.e. Lean's natural division. -/
def lowFreq (dataArray : List ℕ) : List ℕ :=
  dataArray.take (dataArray.length / 4)

/-- `midFreq = dataArray.slice(bufferLength / 4, (3 * bufferLength) / 4)`. -/
def midFreq (dataArray : List ℕ) : List ℕ :=
  (dataArray.drop (dataArray.length / 4)).take (3 * dataArray.length / 4 - dataArray.length / 4)

/-- `highFreq = dataArray.slice((3 * bufferLength) / 4)`. -/
def highFreq (dataArray : List ℕ) : List ℕ :=
  dataArray.drop (3 * dataArray.length / 4)

/-- `lowEnergy = lowFreq.reduce((sum, val) => sum + val, 0) / lowFreq.length`. -/
def lowEnergy (dataArray : List ℕ) : ℚ :=
  ((lowFreq dataArray).sum : ℚ) / (lowFreq dataArray).length

/-- `midEnergy`, as `lowEnergy` over `midFreq`. -/
def midEnergy (dataArray : List ℕ) : ℚ :=
  ((midFreq dataArray).sum : ℚ) / (midFreq dataArray).length

/-- `highEnergy`, as `lowEnergy` over `highFreq`. -/
def highEnergy (dataArray : List ℕ) : ℚ :=
  ((highFreq dataArray).sum : ℚ) / (highFreq dataArray).length

/-- `isSpeaking = average > speechThreshold` with `speechThreshold = 30`
(raw 0–255 scale, before the `/255` normalization). -/
def isSpeaking (dataArray : List ℕ) : Bool :=
  30 < average dataArray

end audioProcessor

/-- **SpeechPatternSummary**: the object returned by
`calculateSpeechCharacteristics`. -/
structure SpeechPatternSummary where
  averageVolume : ℚ
  consistency : ℚ
  speechPattern : String
  speechRatio : ℚ
  quality : String
  deriving DecidableEq

/-- `Math.max(...xs)` over a list of rationals; the `[]` case is
unreachable behind the source's non-empty guard (JavaScript would give
`-Infinity` there). -/
def maxOf : List ℚ → ℚ
  | [] => 0
  | x :: xs => xs.foldl max x

/-- `Math.min(...xs)`; same remarks as `maxOf`. -/
def minOf : List ℚ → ℚ
  | [] => 0
  | x :: xs => xs.foldl min x

namespace audioProcessor

/-- `audioProcessor.calculateSpeechCharacteristics(audioHistory)` from
`audio.js`: `null` (here `none`) on an empty history, otherwise the
summary over `recentData = audioHistory.slice(-10)`. -/
def calculateSpeechCharacteristics (audioHistory : List AudioFrameMetrics) :
    Option SpeechPatternSummary :=
  if audioHistory.length = 0 then none
  else
    let recentData := audioHistory.drop (audioHistory.length - 10)
    let avgVolume := ((recentData.map (·.average)).sum : ℚ) / recentData.length
    let consistency := 1 - (maxOf (recentData.map (·.average)) - minOf (recentData.map (·.average)))
    let speakingFrames := (recentData.filter (·.isSpeaking)).length
    let speechRatio := (speakingFrames : ℚ) / recentData.length
    let speechPattern :=
      if 0.8 < speechRatio then "continuous"
      else if 0.5 < speechRatio then "intermittent"
      else if 0.2 < speechRatio then "sparse"
      else "silent"
    some
      { averageVolume := avgVolume
        consistency := consistency
        speechPattern := speechPattern
        speechRatio := speechRatio
        quality := if 0.3 < avgVolume ∧ 0.5 < consistency then "high" else "medium" }

end audioProcessor

/-- **QualityAssessment**: the object returned by
`speechQuality.assessQuality`. -/
structure QualityAssessment where
  score : ℕ
  level : String
  factors : List String
  recommendations : List String
  deriving DecidableEq

namespace speechQuality

/-- Check 1 of `assessQuality`: `average >= 0.3 && average <= 0.8`. -/
def volumeOk (audioData : AudioFrameMetrics) : Bool :=
  decide (0.3 ≤ audioData.average) && decide (audioData.average ≤ 0.8)

/-- Check 2: `frequencyDistribution.mid > frequencyDistribution.low &&
frequencyDistribution.mid > frequencyDistribution.high`. -/
def freqOk (audioData : AudioFrameMetrics) : Bool :=
  decide (audioData.frequencyDistribution.low < audioData.frequencyDistribution.mid) &&
  decide (audioData.frequencyDistribution.high < audioData.frequencyDistribution.mid)

/-- Check 3: `speechCharacteristics && speechCharacteristics.consistency > 0.7`. -/
def consistencyOk (speechCharacteristics : Option SpeechPatternSummary) : Bool :=
  match speechCharacteristics with
  | some sc => decide (0.7 < sc.consistency)
  | none => false

/-- Check 4: `rms > 0.1 && rms < 0.8`. -/
def rmsOk (audioData : AudioFrameMetrics) : Bool :=
  decide (0.1 < audioData.rms) && decide (audioData.rms < 0.8)

/-- The `score` accumulated by `assessQuality`: each passing check adds 25. -/
def score (audioData : AudioFrameMetrics)
    (speechCharacteristics : Option SpeechPatternSummary) : ℕ :=
  (if volumeOk audioData then 25 else 0) +
  (if freqOk audioData then 25 else 0) +
  (if consistencyOk speechCharacteristics then 25 else 0) +
  (if rmsOk audioData then 25 else 0)

/-- The `factors` strings accumulated by `assessQuality`, in push order;
check 1 also records (unscored) `"Volume too low"` / `"Volume too high"`. -/
def factors (audioData : AudioFrameMetrics)
    (speechCharacteristics : Option SpeechPatternSummary) : List String :=
  (if volumeOk audioData then ["Good volume level"]
   else if audioData.average < 0.1 then ["Volume too low"]
   else if 0.9 < audioData.average then ["Volume too high"]
   else []) ++
  (if freqOk audioData then ["Good frequency distribution"] else []) ++
  (if consistencyOk speechCharacteristics then ["Consistent audio levels"] else []) ++
  (if rmsOk audioData then ["Good dynamic range"] else [])

/-- The `qualityLevel` tiering of `assessQuality`: starts at `'poor'`,
then `score >= 75 → 'excellent'`, `>= 50 → 'good'`, `>= 25 → 'fair'`. -/
def qualityLevel (score : ℕ) : String :=
  if 75 ≤ score then "excellent"
  else if 50 ≤ score then "good"
  else if 25 ≤ score then "fair"
  else "poor"

/-- `generateRecommendations(score, factors)` from `audio.js`: one fixed
remediation string per missing factor, only when `score < 75`. -/
def generateRecommendations (score : ℕ) (factors : List String) : List String :=
  if score < 75 then
    (if "Good volume level" ∈ factors then []
     else ["Adjust microphone distance or system volume"]) ++
    (if "Good frequency distribution" ∈ factors then []
     else ["Check microphone quality and reduce background noise"]) ++
    (if "Consistent audio levels" ∈ factors then []
     else ["Maintain steady speaking volume and distance"]) ++
    (if "Good dynamic range" ∈ factors then []
     else ["Ensure proper microphone settings and audio drivers"])
  else []

/-- `speechQuality.assessQuality(audioData, speechCharacteristics)` from
`audio.js`. -/
def assessQuality (audioData : AudioFrameMetrics)
    (speechCharacteristics : Option SpeechPatternSummary) : QualityAssessment :=
  { score := score audioData speechCharacteristics
    level := qualityLevel (score audioData speechCharacteristics)
    factors := factors audioData speechCharacteristics
    recommendations :=
      generateRecommendations (score audioData speechCharacteristics)
        (factors audioData speechCharacteristics) }

end speechQuality

/-! ## Attention engine (`src/utils/attention.js`)

The class state (`memoryBank`) is passed explicitly: methods that read
`this.memoryBank` take it as an argument, `updateMemory` returns the new
bank. -/

namespace AttentionMechanism

/-- The word-importance categories of `getWordImportance()`. -/
structure WordImportance where
  highImportance : List String
  mediumImportance : List String
  lowImportance : List String

/-- `getWordImportance()` from `attention.js`. -/
def getWordImportance : WordImportance :=
  { highImportance :=
      ["important", "critical", "urgent", "problem", "solution", "error",
       "success", "failure", "meeting", "deadline", "project", "result"]
    mediumImportance :=
      ["please", "thank", "help", "question", "answer", "information",
       "data", "report", "analysis", "summary", "detail", "process"]
    lowImportance :=
      ["the", "and", "or", "but", "in", "on", "at", "to", "for", "of",
       "with", "by", "from", "up", "about", "into", "through", "during"] }

/-- `getSemanticGroups()` from `attention.js`. -/
def getSemanticGroups : List (List String) :=
  [ ["meeting", "conference", "call", "discussion", "talk"],
    ["project", "task", "work", "job", "assignment"],
    ["problem", "issue", "bug", "error", "trouble"],
    ["data", "information", "report", "analysis", "statistics"],
    ["time", "schedule", "deadline", "date", "calendar"],
    ["money", "cost", "budget", "price", "financial"] ]

/-- `calculateContextRelevance(word, context)` from `attention.js`:
`context.join(' ').toLowerCase().split(' ')` membership gives 0.8, a shared
semantic group gives 0.6, otherwise 0.1. -/
def calculateContextRelevance (word : String) (context : List String) : ℚ :=
  let contextWords := jsSplitOnSpace (jsToLower (" ".intercalate context))
  let wordLower := jsToLower word
  if contextWords.contains wordLower then 0.8
  else if getSemanticGroups.any fun group =>
      group.contains wordLower && contextWords.any fun cWord => group.contains cWord then 0.6
  else 0.1

/-- The clamped pre-softmax weights of `calculateAttention` (the body of
the `words.forEach` loop): base 0.3, importance bumps, position bump for
the first and last index, length bump, context bump, then
`Math.min(1.0, Math.max(0.2, weight))`. -/
def rawAttention (words context : List String) : List ℚ :=
  words.enum.map fun p =>
    let index := p.1
    let word := p.2
    let weight : ℚ := 0.3
    let weight :=
      if getWordImportance.highImportance.contains (jsToLower word) then weight + 0.4
      else if getWordImportance.mediumImportance.contains (jsToLower word) then weight + 0.2
      else weight
    let weight := if index = 0 ∨ index = words.length - 1 then weight + 0.2 else weight
    let weight := if 6 < word.length then weight + 0.1 else weight
    let weight :=
      if 0 < context.length then weight + calculateContextRelevance word context * 0.3
      else weight
    min 1.0 (max 0.2 weight)

/-- `softmax(weights)` from `attention.js`: exponentiate, divide by the
sum of the exponentials. -/
noncomputable def softmax (weights : List ℝ) : List ℝ :=
  let expWeights := weights.map Real.exp
  let sumExp := expWeights.sum
  expWeights.map fun exp => exp / sumExp

/-- `calculateAttention(words, context)` from `attention.js`: clamp to
`[0.2, 1.0]`, then softmax over the whole sequence. -/
noncomputable def calculateAttention (words context : List String) : List ℝ :=
  softmax ((rawAttention words context).map (Rat.cast : ℚ → ℝ))

/-- `updateMemory(utterance)` from `attention.js`: push, then shift once
when the bank holds more than 5 utterances. -/
def updateMemory (memoryBank : List String) (utterance : String) : List String :=
  let pushed := memoryBank ++ [utterance]
  if 5 < pushed.length then pushed.drop 1 else pushed

/-- `getRecentContext(numUtterances = 3)` from `attention.js`:
`memoryBank.slice(-numUtterances)`.  JavaScript `slice(-0)` is `slice(0)`,
the whole array, hence the zero case. -/
def getRecentContext (memoryBank : List String) (numUtterances : ℕ := 3) : List String :=
  if numUtterances = 0 then memoryBank
  else memoryBank.drop (memoryBank.length - numUtterances)

/-- `calculateContentAttention(words)`: 0.2 for stopwords, 0.8 otherwise. -/
def calculateContentAttention (words : List String) : List ℚ :=
  words.map fun word =>
    if getWordImportance.lowImportance.contains (jsToLower word) then (0.2 : ℚ) else 0.8

/-- JavaScript division where a zero denominator is non-finite (`NaN` or
`±Infinity`), modelled as `none`. -/
def jsDiv (a b : ℚ) : Option ℚ :=
  if b = 0 then none else some (a / b)

/-- Addition on JavaScript numbers that may be non-finite: `none` (a
non-finite value) propagates. -/
def oadd : Option ℚ → Option ℚ → Option ℚ
  | some a, some b => some (a + b)
  | _, _ => none

/-- `calculatePositionalAttention(words)` from `attention.js`:
`relativePos = index / (words.length - 1)` — for a single word this is
`0/0 = NaN`, there is no special case in the source — then the U-shaped
curve `0.3 + 0.7 * (Math.abs(relativePos - 0.5) * 2)`. -/
def calculatePositionalAttention (words : List String) : List (Option ℚ) :=
  (List.range words.length).map fun index =>
    (jsDiv (index : ℚ) ((words.length : ℚ) - 1)).map fun relativePos =>
      0.3 + 0.7 * (|relativePos - 0.5| * 2)

/-- `calculateContextualAttention(words)` from `attention.js`, against the
engine's stored memory: `0.3 + relevance * 0.7` with
`context = this.getRecentContext()`. -/
def calculateContextualAttention (words memoryBank : List String) : List ℚ :=
  let context := getRecentContext memoryBank
  words.map fun word => 0.3 + calculateContextRelevance word context * 0.7

/-- `multiHeadAttention(words, numHeads = 3)` from `attention.js` at the
default `numHeads = 3`: the content, positional and contextual heads,
averaged element-wise (`headResults.reduce((sum, head) => sum + head[i], 0)
/ numHeads`); a non-finite head value propagates into the average. -/
def multiHeadAttention (words memoryBank : List String) : List (Option ℚ) :=
  let h0 := (calculateContentAttention words).map some
  let h1 := calculatePositionalAttention words
  let h2 := (calculateContextualAttention words memoryBank).map some
  (List.zipWith oadd (List.zipWith oadd h0 h1) h2).map (Option.map fun s => s / 3)

end AttentionMechanism

/-! ## Theorems -/

/-- Every element of `x :: xs` is bounded by the left fold of `max`
(`Math.max(...)` over a non-empty list). -/
lemma le_foldl_max (xs : List ℚ) : ∀ x y, y ∈ x :: xs → y ≤ xs.foldl max x := by
  induction xs with
  | nil =>
    intro x y hy
    simp at hy
    simp [hy]
  | cons z zs ih =>
    intro x y hy
    simp only [List.foldl_cons]
    have hself : max x z ≤ zs.foldl max (max x z) :=
      ih (max x z) (max x z) (List.mem_cons_self _ _)
    rcases List.mem_cons.1 hy with h | h
    · rw [h]
      exact le_trans (le_max_left x z) hself
    · rcases List.mem_cons.1 h with h2 | h2
      · rw [h2]
        exact le_trans (le_max_right x z) hself
      · exact ih (max x z) y (List.mem_cons_of_mem _ h2)

/-- The left fold of `max` over `x :: xs` is one of its elements. -/
lemma foldl_max_mem (xs : List ℚ) : ∀ x, xs.foldl max x ∈ x :: xs := by
  induction xs with
  | nil => intro x; simp
  | cons z zs ih =>
    intro x
    simp only [List.foldl_cons]
    have h1 := ih (max x z)
    rcases List.mem_cons.1 h1 with h | h
    · rcases max_choice x z with hm | hm <;> rw [hm] at h ⊢ <;> rw [h] <;> simp
    · exact List.mem_cons_of_mem _ (List.mem_cons_of_mem _ h)

/-- The left fold of `min` over `x :: xs` bounds every element from below. -/
lemma foldl_min_le (xs : List ℚ) : ∀ x y, y ∈ x :: xs → xs.foldl min x ≤ y := by
  induction xs with
  | nil =>
    intro x y hy
    simp at hy
    simp [hy]
  | cons z zs ih =>
    intro x y hy
    simp only [List.foldl_cons]
    have hself : zs.foldl min (min x z) ≤ min x z :=
      ih (min x z) (min x z) (List.mem_cons_self _ _)
    rcases List.mem_cons.1 hy with h | h
    · rw [h]
      exact le_trans hself (min_le_left x z)
    · rcases List.mem_cons.1 h with h2 | h2
      · rw [h2]
        exact le_trans hself (min_le_right x z)
      · exact ih (min x z) y (List.mem_cons_of_mem _ h2)

/-- The left fold of `min` over `x :: xs` is one of its elements. -/
lemma foldl_min_mem (xs : List ℚ) : ∀ x, xs.foldl min x ∈ x :: xs := by
  induction xs with
  | nil => intro x; simp
  | cons z zs ih =>
    intro x
    simp only [List.foldl_cons]
    have h1 := ih (min x z)
    rcases List.mem_cons.1 h1 with h | h
    · rcases min_choice x z with hm | hm <;> rw [hm] at h ⊢ <;> rw [h] <;> simp
    · exact List.mem_cons_of_mem _ (List.mem_cons_of_mem _ h)

/-- `maxOf` of a non-empty list is one of its elements. -/
lemma maxOf_mem {l : List ℚ} (h : l ≠ []) : maxOf l ∈ l := by
  cases l with
  | nil => exact absurd rfl h
  | cons x xs => exact foldl_max_mem xs x

/-- `maxOf` bounds every element of the list from above. -/
lemma le_maxOf {l : List ℚ} {y : ℚ} (hy : y ∈ l) : y ≤ maxOf l := by
  cases l with
  | nil => simp at hy
  | cons x xs => exact le_foldl_max xs x y hy

/-- `minOf` of a non-empty list is one of its elements. -/
lemma minOf_mem {l : List ℚ} (h : l ≠ []) : minOf l ∈ l := by
  cases l with
  | nil => exact absurd rfl h
  | cons x xs => exact foldl_min_mem xs x

/-- `minOf` bounds every element of the list from below. -/
lemma minOf_le {l : List ℚ} {y : ℚ} (hy : y ∈ l) : minOf l ≤ y := by
  cases l with
  | nil => simp at hy
  | cons x xs => exact foldl_min_le xs x y hy

/-- C2 counterexample: `extractFeatures("")` does NOT return `wordCount = 0`:
in JavaScript `"".split(' ')` is `[""]` (one empty token), so the word count
is 1. -/
theorem extractFeatures_empty_claim_false :
    ¬ ((speechFeatures.extractFeatures "").wordCount = 0 ∧
       (speechFeatures.extractFeatures "").avgWordLength = 0 ∧
       (speechFeatures.extractFeatures "").complexity = 0) := by
  intro h
  exact absurd h.1 (by decide)

/-- C2 (amended): `extractFeatures` applied to the empty string returns
`wordCount = 1` (the empty string tokenizes to one empty token, not an empty
token sequence), and `avgWordLength = 0` and `complexity = 0` via the
guarded divisions. -/
theorem extractFeatures_empty :
    (speechFeatures.extractFeatures "").wordCount = 1 ∧
    (speechFeatures.extractFeatures "").avgWordLength = 0 ∧
    (speechFeatures.extractFeatures "").complexity = 0 := by
  refine ⟨by decide, ?_, ?_⟩
  · simp [speechFeatures.extractFeatures, jsSplitOnSpace, jsToLower, splitChar]
  · simp [speechFeatures.extractFeatures, calculateComplexity, jsSplitOnSpace,
      jsToLower, splitChar]

/-- C4: `classify` is the ordered decision list of the six rules with
first-match-wins semantics and the fixed per-rule confidences 0.85, 0.78,
0.82, 0.76, 0.80, 0.75; on the spec's example feature vector every rule 1–5
fails and the result is Normal Speech with confidence 0.75. -/
theorem classify_decision_list :
    (∀ f : TextFeatures,
      svmClassifier.classify f = firstMatch (decisionRules f) ⟨"Normal Speech", 0.75⟩) ∧
    svmClassifier.classify exampleFeatures = ⟨"Normal Speech", 0.75⟩ := by
  constructor
  · intro f
    simp only [svmClassifier.classify, firstMatch, decisionRules, decide_eq_true_eq]
  · norm_num [svmClassifier.classify, exampleFeatures]

/-- C1: the single-token positional-attention edge case.  The source has NO
special case for `words.length === 1`: `relativePos = 0 / 0` is `NaN`, so
the positional head and with it the combined multi-head weight of
`multiHeadAttention(["a"])` (default 3 heads, fresh empty memory) are
non-finite (`none` in this embedding) — not the single finite weight the
specification requires. -/
theorem multiHeadAttention_single_token_not_finite :
    AttentionMechanism.calculatePositionalAttention ["a"] = [none] ∧
    AttentionMechanism.multiHeadAttention ["a"] [] = [none] := by
  have h1 : AttentionMechanism.calculatePositionalAttention ["a"] = [none] := by
    have hz : ((((["a"] : List String).length) : ℚ) - 1) = 0 := by norm_num
    simp [AttentionMechanism.calculatePositionalAttention, AttentionMechanism.jsDiv, hz]
    rfl
  refine ⟨h1, ?_⟩
  have h0 : AttentionMechanism.calculateContentAttention ["a"] = [0.8] := by
    have hmem :
        ¬ (jsToLower "a" ∈ AttentionMechanism.getWordImportance.lowImportance) := by decide
    simp [AttentionMechanism.calculateContentAttention, hmem]
  have h2 : AttentionMechanism.calculateContextualAttention ["a"] [] = [0.3 + 0.1 * 0.7] := by
    norm_num [AttentionMechanism.calculateContextualAttention,
      AttentionMechanism.calculateContextRelevance, AttentionMechanism.getRecentContext]
    rw [if_neg (by decide), if_neg (by decide)]
    norm_num
  unfold AttentionMechanism.multiHeadAttention
  rw [h0, h1, h2]
  rfl

/-- C8: the Attention Engine's memory is a bounded FIFO of capacity 5:
starting from the fresh empty `memoryBank`, any sequence of `updateMemory`
calls leaves at most 5 entries, and after exactly 6 calls
`getRecentContext(5)` returns exactly the last 5 inserted utterances in
insertion order — the first inserted one is evicted. -/
theorem updateMemory_fifo_capacity :
    (∀ us : List String,
      ((us.foldl AttentionMechanism.updateMemory []).length ≤ 5)) ∧
    (∀ u1 u2 u3 u4 u5 u6 : String,
      AttentionMechanism.getRecentContext
          ([u1, u2, u3, u4, u5, u6].foldl AttentionMechanism.updateMemory []) 5 =
        [u2, u3, u4, u5, u6]) := by
  constructor
  · intro us
    suffices h : ∀ (us m : List String), m.length ≤ 5 →
        (us.foldl AttentionMechanism.updateMemory m).length ≤ 5 by
      exact h us [] (by simp)
    intro us
    induction us with
    | nil => intro m hm; simpa using hm
    | cons u rest ih =>
      intro m hm
      simp only [List.foldl_cons]
      apply ih
      simp only [AttentionMechanism.updateMemory]
      split_ifs with hgt <;> simp at hgt ⊢ <;> omega
  · intro u1 u2 u3 u4 u5 u6
    simp [AttentionMechanism.updateMemory, AttentionMechanism.getRecentContext]

/-- C3: for every non-empty rolling history whose `average` fields lie in
[0,1] (as `analyzeFrame` produces them), the summary's
`consistency = 1 - (max(average) - min(average))` lies in [0,1]. -/
theorem consistency_unit_interval (audioHistory : List AudioFrameMetrics)
    (hne : audioHistory ≠ [])
    (havg : ∀ m ∈ audioHistory, 0 ≤ m.average ∧ m.average ≤ 1) :
    ∀ s, audioProcessor.calculateSpeechCharacteristics audioHistory = some s →
      0 ≤ s.consistency ∧ s.consistency ≤ 1 := by
  intro s hs
  have hlen : ¬ (audioHistory.length = 0) := by simpa [List.length_eq_zero] using hne
  simp only [audioProcessor.calculateSpeechCharacteristics, if_neg hlen] at hs
  have hsub : ∀ m ∈ audioHistory.drop (audioHistory.length - 10), m ∈ audioHistory :=
    fun m hm => List.drop_subset _ _ hm
  set recentData := audioHistory.drop (audioHistory.length - 10) with hrd
  have hrne : recentData ≠ [] := by
    rw [hrd, ne_eq, List.drop_eq_nil_iff]
    omega
  have hAne : recentData.map (·.average) ≠ [] := by
    simpa using hrne
  have hbound : ∀ y ∈ recentData.map (·.average), 0 ≤ y ∧ y ≤ 1 := by
    intro y hy
    rcases List.mem_map.1 hy with ⟨m, hm, rfl⟩
    exact havg m (hsub m hm)
  have hmax1 : maxOf (recentData.map (·.average)) ≤ 1 :=
    (hbound _ (maxOf_mem hAne)).2
  have hmin0 : 0 ≤ minOf (recentData.map (·.average)) :=
    (hbound _ (minOf_mem hAne)).1
  have hminmax : minOf (recentData.map (·.average)) ≤ maxOf (recentData.map (·.average)) :=
    le_maxOf (minOf_mem hAne)
  have hcons : s.consistency =
      1 - (maxOf (recentData.map (·.average)) - minOf (recentData.map (·.average))) := by
    have := Option.some.inj hs
    rw [← this]
  constructor <;> rw [hcons] <;> linarith

/-- C3 witness: a concrete one-frame history with `average = 0.5`
satisfies the hypotheses, and its summary's consistency lies in [0,1]. -/
theorem consistency_unit_interval_witness :
    (([{ average := 0.5, peak := 0.5, rms := 0.5, isSpeaking := true,
         frequencyDistribution := { low := 0.1, mid := 0.2, high := 0.1 },
         timestamp := 0 }] : List AudioFrameMetrics) ≠ []) ∧
    (∀ m ∈ ([{ average := 0.5, peak := 0.5, rms := 0.5, isSpeaking := true,
               frequencyDistribution := { low := 0.1, mid := 0.2, high := 0.1 },
               timestamp := 0 }] : List AudioFrameMetrics),
      0 ≤ m.average ∧ m.average ≤ 1) ∧
    (∀ s, audioProcessor.calculateSpeechCharacteristics
        ([{ average := 0.5, peak := 0.5, rms := 0.5, isSpeaking := true,
            frequencyDistribution := { low := 0.1, mid := 0.2, high := 0.1 },
            timestamp := 0 }] : List AudioFrameMetrics) = some s →
      0 ≤ s.consistency ∧ s.consistency ≤ 1) :=
  ⟨by simp, by norm_num, consistency_unit_interval _ (by simp) (by norm_num)⟩

/-- C10: for every non-empty history, the summary's `speechPattern` is one
of `continuous`, `intermittent`, `sparse`, `silent`; the initial
`'unknown'` value is always overwritten by the if/else chain. -/
theorem speechPattern_never_unknown (audioHistory : List AudioFrameMetrics)
    (hne : audioHistory ≠ []) :
    ∀ s, audioProcessor.calculateSpeechCharacteristics audioHistory = some s →
      (s.speechPattern = "continuous" ∨ s.speechPattern = "intermittent" ∨
       s.speechPattern = "sparse" ∨ s.speechPattern = "silent") ∧
      s.speechPattern ≠ "unknown" := by
  intro s hs
  have hlen : ¬ (audioHistory.length = 0) := by simpa [List.length_eq_zero] using hne
  simp only [audioProcessor.calculateSpeechCharacteristics, if_neg hlen] at hs
  have hpat := congrArg SpeechPatternSummary.speechPattern (Option.some.inj hs)
  simp only at hpat
  rw [← hpat]
  split_ifs <;> refine ⟨by simp, by decide⟩

/-- C10 witness: a concrete one-frame non-speaking history; its pattern is
one of the four produced values and is not `'unknown'`. -/
theorem speechPattern_never_unknown_witness :
    (([{ average := 0.05, peak := 0.1, rms := 0.05, isSpeaking := false,
         frequencyDistribution := { low := 0.1, mid := 0.1, high := 0.1 },
         timestamp := 3 }] : List AudioFrameMetrics) ≠ []) ∧
    (∀ s, audioProcessor.calculateSpeechCharacteristics
        ([{ average := 0.05, peak := 0.1, rms := 0.05, isSpeaking := false,
            frequencyDistribution := { low := 0.1, mid := 0.1, high := 0.1 },
            timestamp := 3 }] : List AudioFrameMetrics) = some s →
      (s.speechPattern = "continuous" ∨ s.speechPattern = "intermittent" ∨
       s.speechPattern = "sparse" ∨ s.speechPattern = "silent") ∧
      s.speechPattern ≠ "unknown") :=
  ⟨by simp, speechPattern_never_unknown _ (by simp)⟩

/-- The factor string of check 1 is recorded iff check 1 passes (the
`"Volume too low"` / `"Volume too high"` strings never collide with it). -/
lemma volume_factor_iff (a : AudioFrameMetrics) (sc : Option SpeechPatternSummary) :
    ("Good volume level" ∈ speechQuality.factors a sc) ↔ speechQuality.volumeOk a = true := by
  unfold speechQuality.factors
  cases h : speechQuality.volumeOk a <;> simp [h] <;> split_ifs <;> decide

/-- The factor string of check 2 is recorded iff check 2 passes. -/
lemma freq_factor_iff (a : AudioFrameMetrics) (sc : Option SpeechPatternSummary) :
    ("Good frequency distribution" ∈ speechQuality.factors a sc) ↔
      speechQuality.freqOk a = true := by
  unfold speechQuality.factors
  cases h : speechQuality.freqOk a <;> simp [h] <;> split_ifs <;> decide

/-- The factor string of check 3 is recorded iff check 3 passes. -/
lemma consistency_factor_iff (a : AudioFrameMetrics) (sc : Option SpeechPatternSummary) :
    ("Consistent audio levels" ∈ speechQuality.factors a sc) ↔
      speechQuality.consistencyOk sc = true := by
  unfold speechQuality.factors
  cases h : speechQuality.consistencyOk sc <;> simp [h] <;> split_ifs <;> decide

/-- The factor string of check 4 is recorded iff check 4 passes. -/
lemma rms_factor_iff (a : AudioFrameMetrics) (sc : Option SpeechPatternSummary) :
    ("Good dynamic range" ∈ speechQuality.factors a sc) ↔
      speechQuality.rmsOk a = true := by
  unfold speechQuality.factors
  cases h : speechQuality.rmsOk a <;> simp [h] <;> split_ifs <;> decide

/-- C6: `assessQuality` sums exactly 25 points per passing check, so the
score is one of {0, 25, 50, 75, 100}; the level is `excellent` iff the
score is ≥ 75, `good` iff it is in [50, 75) (in particular the tiering maps
a hypothetical score of 74 to `good`), `fair` iff in [25, 50), and `poor`
otherwise. -/
theorem assessQuality_score_and_level (a : AudioFrameMetrics)
    (sc : Option SpeechPatternSummary) :
    ((speechQuality.assessQuality a sc).score =
      (if speechQuality.volumeOk a then 25 else 0) +
      (if speechQuality.freqOk a then 25 else 0) +
      (if speechQuality.consistencyOk sc then 25 else 0) +
      (if speechQuality.rmsOk a then 25 else 0)) ∧
    ((speechQuality.assessQuality a sc).score = 0 ∨
     (speechQuality.assessQuality a sc).score = 25 ∨
     (speechQuality.assessQuality a sc).score = 50 ∨
     (speechQuality.assessQuality a sc).score = 75 ∨
     (speechQuality.assessQuality a sc).score = 100) ∧
    ((speechQuality.assessQuality a sc).level = "excellent" ↔
      75 ≤ (speechQuality.assessQuality a sc).score) ∧
    ((speechQuality.assessQuality a sc).level = "good" ↔
      50 ≤ (speechQuality.assessQuality a sc).score ∧
      (speechQuality.assessQuality a sc).score < 75) ∧
    ((speechQuality.assessQuality a sc).level = "fair" ↔
      25 ≤ (speechQuality.assessQuality a sc).score ∧
      (speechQuality.assessQuality a sc).score < 50) ∧
    ((speechQuality.assessQuality a sc).level = "poor" ↔
      (speechQuality.assessQuality a sc).score < 25) ∧
    speechQuality.qualityLevel 74 = "good" := by
  cases hv : speechQuality.volumeOk a <;> cases hf : speechQuality.freqOk a <;>
    cases hc : speechQuality.consistencyOk sc <;> cases hr : speechQuality.rmsOk a <;>
      simp only [speechQuality.assessQuality, speechQuality.score,
        speechQuality.qualityLevel, hv, hf, hc, hr] <;> decide

/-- C7: the recommendations are empty whenever the score is ≥ 75; when the
score is < 75 they are exactly the fixed remediation string of each of the
four checks that did not pass, in check order, independent of the other
checks. -/
theorem assessQuality_recommendations (a : AudioFrameMetrics)
    (sc : Option SpeechPatternSummary) :
    (speechQuality.assessQuality a sc).recommendations =
      if (speechQuality.assessQuality a sc).score < 75 then
        (if speechQuality.volumeOk a then []
         else ["Adjust microphone distance or system volume"]) ++
        (if speechQuality.freqOk a then []
         else ["Check microphone quality and reduce background noise"]) ++
        (if speechQuality.consistencyOk sc then []
         else ["Maintain steady speaking volume and distance"]) ++
        (if speechQuality.rmsOk a then []
         else ["Ensure proper microphone settings and audio drivers"])
      else [] := by
  simp only [speechQuality.assessQuality, speechQuality.generateRecommendations,
    volume_factor_iff, freq_factor_iff, consistency_factor_iff, rms_factor_iff]

/-- `softmax` of any non-empty real sequence sums to 1, with every output
in [0,1] (each summand `exp w / Σ exp` is positive and at most the sum). -/
lemma softmax_spec (l : List ℝ) (h : l ≠ []) :
    (AttentionMechanism.softmax l).sum = 1 ∧
    ∀ w ∈ AttentionMechanism.softmax l, 0 ≤ w ∧ w ≤ 1 := by
  unfold AttentionMechanism.softmax
  have hEne : l.map Real.exp ≠ [] := by simpa using h
  have hpos : ∀ x ∈ l.map Real.exp, 0 < x := by
    intro x hx
    rcases List.mem_map.1 hx with ⟨y, _, rfl⟩
    exact Real.exp_pos y
  have hS : 0 < (l.map Real.exp).sum := List.sum_pos _ hpos hEne
  constructor
  · have hmul : ((l.map Real.exp).map fun e => e / (l.map Real.exp).sum).sum =
        (l.map Real.exp).sum / (l.map Real.exp).sum := by
      simp only [div_eq_mul_inv]
      rw [show ((l.map Real.exp).map fun e => e * ((l.map Real.exp).sum)⁻¹) =
          (l.map Real.exp).map fun e => id e * ((l.map Real.exp).sum)⁻¹ from rfl]
      rw [List.sum_map_mul_right]
      simp
    rw [hmul, div_self hS.ne']
  · intro w hw
    rcases List.mem_map.1 hw with ⟨e, he, rfl⟩
    refine ⟨div_nonneg (hpos e he).le hS.le, ?_⟩
    rw [div_le_one hS]
    exact List.single_le_sum (fun x hx => (hpos x hx).le) e he

/-- C5: for every non-empty token sequence and every context, the
single-head path (`calculateAttention`: clamp to [0.2, 1.0], then softmax)
returns weights that sum to exactly 1 in the real-number embedding, each
lying in [0,1]. -/
theorem computeAttention_softmax_normalized (words context : List String)
    (h : words ≠ []) :
    ((AttentionMechanism.calculateAttention words context).sum = 1) ∧
    (∀ w ∈ AttentionMechanism.calculateAttention words context, 0 ≤ w ∧ w ≤ 1) := by
  apply softmax_spec
  intro heq
  apply h
  have hraw : AttentionMechanism.rawAttention words context = [] :=
    List.map_eq_nil_iff.1 heq
  have hlen : words.length = 0 := by
    have hc := congrArg List.length hraw
    simpa [AttentionMechanism.rawAttention] using hc
  exact List.length_eq_zero.1 hlen

/-- C5 witness: the single token `"hello"` with empty context. -/
theorem computeAttention_softmax_normalized_witness :
    ((["hello"] : List String) ≠ []) ∧
    ((AttentionMechanism.calculateAttention ["hello"] []).sum = 1) ∧
    (∀ w ∈ AttentionMechanism.calculateAttention ["hello"] [], 0 ≤ w ∧ w ≤ 1) :=
  ⟨by decide, (computeAttention_softmax_normalized ["hello"] [] (by decide)).1,
    (computeAttention_softmax_normalized ["hello"] [] (by decide)).2⟩

/-- A mean of naturals is non-negative (division-by-zero is 0 in `ℚ`). -/
lemma natList_mean_nonneg (l : List ℕ) : 0 ≤ ((l.sum : ℚ) / l.length) :=
  div_nonneg (Nat.cast_nonneg _) (Nat.cast_nonneg _)

/-- A mean of naturals bounded by `n` is at most `n`. -/
lemma natList_mean_le (l : List ℕ) (n : ℕ) (hb : ∀ v ∈ l, v ≤ n) :
    ((l.sum : ℚ) / l.length) ≤ n := by
  rcases eq_or_ne l [] with rfl | hne
  · simp
  · have hlen : 0 < (l.length : ℚ) := by
      have h0 : 0 < l.length := List.length_pos.2 hne
      exact_mod_cast h0
    rw [div_le_iff₀ hlen]
    have hsum : l.sum ≤ l.length * n := by
      have hs := List.sum_le_card_nsmul l n hb
      simpa [smul_eq_mul] using hs
    calc ((l.sum : ℚ)) ≤ ((l.length * n : ℕ) : ℚ) := by exact_mod_cast hsum
      _ = (n : ℚ) * l.length := by push_cast; ring

/-- `Math.max(...)` (as a fold over naturals with base 0) respects an upper
bound on all elements. -/
lemma foldr_max_le (l : List ℕ) (n : ℕ) (hb : ∀ v ∈ l, v ≤ n) : l.foldr max 0 ≤ n := by
  induction l with
  | nil => simp
  | cons x xs ih =>
    simp only [List.foldr_cons, max_le_iff]
    exact ⟨hb x (by simp), ih fun v hv => hb v (List.mem_cons_of_mem _ hv)⟩

/-- The raw rms of byte-scale samples is at most 255: each squared sample
is at most 255², so the mean of squares is too, and `Real.sqrt` is
monotone. -/
lemma rms_le_255 (dataArray : List ℕ) (hb : ∀ v ∈ dataArray, v ≤ 255) :
    audioProcessor.rms dataArray ≤ 255 := by
  have hsqb : ∀ v ∈ dataArray.map (fun value => value * value), v ≤ 65025 := by
    intro v hv
    rcases List.mem_map.1 hv with ⟨y, hy, rfl⟩
    have h255 := hb y hy
    calc y * y ≤ 255 * 255 := Nat.mul_le_mul h255 h255
      _ = 65025 := by norm_num
  have hql := natList_mean_le (dataArray.map fun value => value * value) 65025 hsqb
  rw [List.length_map] at hql
  unfold audioProcessor.rms
  have harg : ((((dataArray.map fun value => value * value).sum : ℕ) : ℚ) : ℝ) /
      ((dataArray.length : ℕ) : ℝ) ≤ ((65025 : ℚ) : ℝ) := by
    rw [show ((((dataArray.map fun value => value * value).sum : ℕ) : ℚ) : ℝ) /
        ((dataArray.length : ℕ) : ℝ) =
        (((((dataArray.map fun value => value * value).sum : ℕ) : ℚ) /
          ((dataArray.length : ℕ) : ℚ) : ℚ) : ℝ) from by push_cast; ring]
    exact_mod_cast hql
  calc Real.sqrt (((((dataArray.map fun value => value * value).sum : ℕ) : ℚ)) /
        (dataArray.length))
      ≤ Real.sqrt (((65025 : ℚ) : ℝ)) := Real.sqrt_le_sqrt harg
    _ = 255 := by
        rw [show (((65025 : ℚ)) : ℝ) = (255 : ℝ) ^ 2 from by norm_num]
        exact Real.sqrt_sq (by norm_num)

/-- C9: for byte-scale samples (values ≤ 255, length ≥ 4), the normalized
`average`, `peak` and `rms` and the three normalized band energies of
`analyzeFrequencyData` all lie in [0,1], and the three bands partition the
samples at the floor-semantics cut points `⌊N/4⌋` and `⌊3N/4⌋`. -/
theorem analyzeFrame_normalized_bounds (dataArray : List ℕ)
    (hlen : 4 ≤ dataArray.length) (hb : ∀ v ∈ dataArray, v ≤ 255) :
    (0 ≤ audioProcessor.average dataArray / 255 ∧
      audioProcessor.average dataArray / 255 ≤ 1) ∧
    (0 ≤ (audioProcessor.peak dataArray : ℚ) / 255 ∧
      (audioProcessor.peak dataArray : ℚ) / 255 ≤ 1) ∧
    (0 ≤ audioProcessor.rms dataArray / 255 ∧ audioProcessor.rms dataArray / 255 ≤ 1) ∧
    (0 ≤ audioProcessor.lowEnergy dataArray / 255 ∧
      audioProcessor.lowEnergy dataArray / 255 ≤ 1) ∧
    (0 ≤ audioProcessor.midEnergy dataArray / 255 ∧
      audioProcessor.midEnergy dataArray / 255 ≤ 1) ∧
    (0 ≤ audioProcessor.highEnergy dataArray / 255 ∧
      audioProcessor.highEnergy dataArray / 255 ≤ 1) ∧
    audioProcessor.lowFreq dataArray ++ audioProcessor.midFreq dataArray ++
      audioProcessor.highFreq dataArray = dataArray := by
  have hmean : ∀ l : List ℕ, (∀ v ∈ l, v ≤ 255) →
      0 ≤ ((l.sum : ℚ) / l.length) / 255 ∧ ((l.sum : ℚ) / l.length) / 255 ≤ 1 := by
    intro l hl
    constructor
    · exact div_nonneg (natList_mean_nonneg l) (by norm_num)
    · rw [div_le_one (by norm_num : (0:ℚ) < 255)]
      exact_mod_cast natList_mean_le l 255 hl
  refine ⟨hmean dataArray hb, ?_, ?_, ?_, ?_, ?_, ?_⟩
  · constructor
    · exact div_nonneg (Nat.cast_nonneg _) (by norm_num)
    · rw [div_le_one (by norm_num : (0:ℚ) < 255)]
      exact_mod_cast foldr_max_le dataArray 255 hb
  · constructor
    · exact div_nonneg (Real.sqrt_nonneg _) (by norm_num)
    · rw [div_le_one (by norm_num : (0:ℝ) < 255)]
      exact rms_le_255 dataArray hb
  · exact hmean _ fun v hv => hb v (List.take_subset _ _ hv)
  · exact hmean _ fun v hv =>
      hb v (List.drop_subset _ _ (List.take_subset _ _ hv))
  · exact hmean _ fun v hv => hb v (List.drop_subset _ _ hv)
  · unfold audioProcessor.lowFreq audioProcessor.midFreq audioProcessor.highFreq
    have hdrop : (dataArray.drop (dataArray.length / 4)).drop
        (3 * dataArray.length / 4 - dataArray.length / 4) =
        dataArray.drop (3 * dataArray.length / 4) := by
      rw [List.drop_drop]
      congr 1
      omega
    rw [List.append_assoc, ← hdrop, List.take_append_drop, List.take_append_drop]

/-- C9 witness: the concrete 4-sample frame `[0, 100, 200, 255]`. -/
theorem analyzeFrame_normalized_bounds_witness :
    (4 ≤ ([0, 100, 200, 255] : List ℕ).length) ∧
    (∀ v ∈ ([0, 100, 200, 255] : List ℕ), v ≤ 255) ∧
    ((0 ≤ audioProcessor.average [0, 100, 200, 255] / 255 ∧
       audioProcessor.average [0, 100, 200, 255] / 255 ≤ 1) ∧
     (0 ≤ (audioProcessor.peak [0, 100, 200, 255] : ℚ) / 255 ∧
       (audioProcessor.peak [0, 100, 200, 255] : ℚ) / 255 ≤ 1) ∧
     (0 ≤ audioProcessor.rms [0, 100, 200, 255] / 255 ∧
       audioProcessor.rms [0, 100, 200, 255] / 255 ≤ 1) ∧
     (0 ≤ audioProcessor.lowEnergy [0, 100, 200, 255] / 255 ∧
       audioProcessor.lowEnergy [0, 100, 200, 255] / 255 ≤ 1) ∧
     (0 ≤ audioProcessor.midEnergy [0, 100, 200, 255] / 255 ∧
       audioProcessor.midEnergy [0, 100, 200, 255] / 255 ≤ 1) ∧
     (0 ≤ audioProcessor.highEnergy [0, 100, 200, 255] / 255 ∧
       audioProcessor.highEnergy [0, 100, 200, 255] / 255 ≤ 1) ∧
     audioProcessor.lowFreq [0, 100, 200, 255] ++ audioProcessor.midFreq [0, 100, 200, 255] ++
       audioProcessor.highFreq [0, 100, 200, 255] = [0, 100, 200, 255]) :=
  ⟨by decide, by decide, analyzeFrame_normalized_bounds _ (by decide) (by decide)⟩
